import Mathlib

/-!
# Verification of the Agenda component (`src/agenda/index.js`)

A shallow embedding, in Lean 4, of the logic of the `AgendaView` component:

* `generateMarkings` — date-keyed marking aggregation for the calendar grid;
* the expanded/compact view-state machine (`expandCalendar`, `compactCalendar`,
  `enableCalendarScrolling`, `chooseDay`) together with its timer-driven
  animation sequencing and its optional-callback effects;
* the geometric interpolations wired in `render` (header translate,
  week-day row opacity and translate) and the clamped height computations
  (`initialScrollPadPosition`, `agendaHeight`).

JavaScript objects keyed by date strings are embedded as association lists
(`Obj α`); numeric layout quantities are embedded as rationals (`ℚ`); timers
are embedded as an explicit pending-timer system with fresh identifiers.
Mutation (for the frame property of `generateMarkings`) is embedded with an
explicit heap of objects addressed by `Nat` references.
-/

namespace Agenda

/-- The `HEADER_HEIGHT` constant of `src/agenda/index.js`. -/
def HEADER_HEIGHT : ℚ := 94

/-- The `KNOB_HEIGHT` constant of `src/agenda/index.js`. -/
def KNOB_HEIGHT : ℚ := 24

/-! ## JavaScript objects as association lists -/

/-- A JavaScript object with string keys, embedded as an association list.
A well-formed JS object has no duplicate keys; operations below are
nevertheless stated so that the theorems need no duplicate-freedom
hypotheses wherever the JS semantics does not. -/
abbrev Obj (α : Type) : Type := List (String × α)

namespace Obj

/-- `Object.keys(o)`. -/
def keys (o : Obj α) : List String := o.map Prod.fst

/-- Property read `o[k]`: `some v` when the key is present (first binding),
`none` when absent (JS `undefined`). -/
def lookup (o : Obj α) (k : String) : Option α :=
  (o.find? (fun p => p.1 = k)).map Prod.snd

/-- Property write / spread-update `{...o, [k]: v}`: replaces the binding of
`k` when present, appends it otherwise. -/
def setKey (o : Obj α) (k : String) (v : α) : Obj α :=
  if k ∈ keys o then o.map (fun p => if p.1 = k then (k, v) else p)
  else o ++ [(k, v)]

end Obj
/-! ## Markings and `generateMarkings` -/

/-- A marking record stored in a `markedDates`-style object: the fields this
component reads or writes (`marked`, `selected`), plus arbitrary further
fields carried along by spread-merging. A `none` field is an absent field. -/
structure Marking where
  marked : Option Bool := none
  selected : Option Bool := none
  other : List (String × Bool) := []
deriving DecidableEq, Repr

/-- The spread-merge `{...(m), ...{selected: true}}`: sets `selected` to
`true` and keeps every other field of `m`. -/
def Marking.withSelected (m : Marking) : Marking :=
  { m with selected := some true }

/-- The value stored under a date key of `props.items`: `some l` an item
array `l`, `none` a null/undefined entry. Items themselves are arbitrary
records, embedded as `Nat`. -/
abbrev ItemsVal : Type := Option (List Nat)

/-- Truthiness of `items[key] && items[key].length`: true exactly when the
entry is a non-empty array. -/
def truthyNonEmpty : Option ItemsVal → Bool
  | some (some (_ :: _)) => true
  | _ => false

/-- The `forEach` loop of `generateMarkings`: for each key of `items` whose
value is a non-empty array, bind `{marked: true}`. -/
def itemsToMarkings (items : Obj ItemsVal) : Obj Marking :=
  (items.keys.filter (fun k => truthyNonEmpty (items.lookup k))).map
    (fun k => (k, { marked := some true }))

/-- `generateMarkings` of `src/agenda/index.js` (lines 254–268).
`items` and `markedDates` are the optional props; `selKey` is the selected
day already formatted `'yyyy-MM-dd'` (date formatting is delegated to the
external date library). -/
def generateMarkings (items : Option (Obj ItemsVal))
    (markedDates : Option (Obj Marking)) (selKey : String) : Obj Marking :=
  let markings : Obj Marking :=
    match markedDates with
    | some m => m
    | none => itemsToMarkings (items.getD [])
  markings.setKey selKey
    (Marking.withSelected ((markings.lookup selKey).getD {}))

/-- A key of a markings object carries the flag `marked: true`. -/
def hasMarkedTrue (o : Obj Marking) (k : String) : Prop :=
  ∃ m, o.lookup k = some m ∧ m.marked = some true

/-! ## A heap model of `generateMarkings`, for its frame property

JavaScript objects are mutable; to express that `generateMarkings` never
mutates the externally supplied `props.items` / `props.markedDates`, the
function is re-embedded over an explicit heap of objects addressed by `Nat`
references. The only assignment in its body, `markings[key] = {marked: true}`,
targets the object freshly allocated by `markings = {}`; the returned object
`{...markings, [key]: ...}` is freshly allocated as well. -/

/-- A value stored under a key of a heap object: an item array, a
null/undefined entry, or a marking record. -/
inductive JVal where
  | arr : List Nat → JVal
  | nullv : JVal
  | mark : Marking → JVal
deriving DecidableEq, Repr

/-- A heap of JavaScript objects; a reference is an index into the heap. -/
abbrev Heap : Type := List (Obj JVal)

namespace Heap

/-- Dereference `r` (out-of-range reads give the empty object; the theorems
only ever depend on in-range reads). -/
def get (h : Heap) (r : Nat) : Obj JVal := (h[r]?).getD []

/-- Allocate a fresh object, returning the extended heap and the new
reference. -/
def allocObj (h : Heap) (o : Obj JVal) : Heap × Nat := (h ++ [o], h.length)

/-- The assignment `h[r][k] = v`. -/
def setField (h : Heap) (r : Nat) (k : String) (v : JVal) : Heap :=
  h.set r (Obj.setKey (get h r) k v)

end Heap
/-- Truthiness of `items[key] && items[key].length` on heap values: only a
non-empty array passes. -/
def jTruthyLen : Option JVal → Bool
  | some (.arr (_ :: _)) => true
  | _ => false

/-- The spread-merge `{...(markings[key] || {}), ...{selected: true}}` on a
heap value: a marking record keeps its fields; a missing entry contributes
no fields. -/
def jMergeSelected : Option JVal → Marking
  | some (.mark m) => Marking.withSelected m
  | _ => Marking.withSelected {}

/-- The `forEach` write loop of `generateMarkings` on the heap: for each key
in `ks`, the assignment `markings[key] = {marked: true}` on the object at
reference `mr`. -/
def writeMarks (h : Heap) (mr : Nat) (ks : List String) : Heap :=
  ks.foldl
    (fun acc k => Heap.setField acc mr k (.mark { marked := some true })) h

/-- The `markedDates`-absent branch of `generateMarkings` on the heap:
allocate `markings = {}`, run the write loop over the qualifying keys `ks`,
then allocate and return `{...markings, [sel]: merged}`. -/
def buildFreshMarkings (h : Heap) (ks : List String) (sel : String) :
    Heap × Nat :=
  let a := Heap.allocObj h []
  let h₂ := writeMarks a.1 a.2 ks
  let mObj := Heap.get h₂ a.2
  Heap.allocObj h₂ (mObj.setKey sel (.mark (jMergeSelected (mObj.lookup sel))))

/-- `generateMarkings` re-embedded over the heap (`src/agenda/index.js`
lines 254–268): `itemsRef`/`mdRef` are the references held by `props.items` /
`props.markedDates` (`none` when the prop is absent); returns the updated
heap and a reference to the returned object. (Reading `props.items` before
the fresh `{}` allocation is equivalent to reading it after: allocation only
appends to the heap.) -/
def generateMarkingsH (h : Heap) (itemsRef : Option Nat) (mdRef : Option Nat)
    (sel : String) : Heap × Nat :=
  match mdRef with
  | some r =>
    let mObj := Heap.get h r
    Heap.allocObj h
      (mObj.setKey sel (.mark (jMergeSelected (mObj.lookup sel))))
  | none =>
    let itemsObj := match itemsRef with
      | some ir => Heap.get h ir
      | none => []
    buildFreshMarkings h
      (itemsObj.keys.filter (fun k => jTruthyLen (itemsObj.lookup k))) sel

/-! ## Layout geometry: clamped heights and interpolations in `render` -/

/-- Clamp `x` into `[lo, hi]`. -/
def clampQ (x lo hi : ℚ) : ℚ := min hi (max lo x)

/-- Modelled from the spec: the host UI framework's `Animated` interpolation
with `extrapolate: 'clamp'` (the spec's non-goals leave the
animation/interpolation engine to the host framework). The input is clamped
into `[inMin, inMax]` and mapped linearly onto `[outMin, outMax]`; a
degenerate input range yields `outMin`. -/
def interpolate (inMin inMax outMin outMax x : ℚ) : ℚ :=
  let xc := clampQ x inMin inMax
  if inMax = inMin then outMin
  else outMin + (xc - inMin) * (outMax - outMin) / (inMax - inMin)

/-- `initialScrollPadPosition` of `src/agenda/index.js` (lines 111–113):
`Math.max(0, this.viewHeight - HEADER_HEIGHT)`. -/
def initialScrollPadPosition (viewHeight : ℚ) : ℚ :=
  max 0 (viewHeight - HEADER_HEIGHT)

/-- The `agendaHeight` computed at the top of `render` (line 271):
`Math.max(0, this.viewHeight - HEADER_HEIGHT)`. -/
def agendaHeight (viewHeight : ℚ) : ℚ := max 0 (viewHeight - HEADER_HEIGHT)

/-- The `headerTranslate` interpolation of `render` (lines 289–293):
`scrollY` interpolated from `[0, agendaHeight]` to `[agendaHeight, 0]`,
clamped. -/
def headerTranslate (viewHeight y : ℚ) : ℚ :=
  interpolate 0 (agendaHeight viewHeight) (agendaHeight viewHeight) 0 y

/-- The week-day row opacity interpolation of `render` (lines 275–279):
`scrollY` interpolated from `[agendaHeight - HEADER_HEIGHT, agendaHeight]`
to `[0, 1]`, clamped. -/
def weekdaysOpacity (viewHeight y : ℚ) : ℚ :=
  interpolate (agendaHeight viewHeight - HEADER_HEIGHT)
    (agendaHeight viewHeight) 0 1 y

/-- The week-day row translate interpolation of `render` (lines 281–285):
`scrollY` interpolated from `[max(0, agendaHeight - HEADER_HEIGHT),
agendaHeight]` to `[-HEADER_HEIGHT, 0]`, clamped. -/
def weekdaysTranslateY (viewHeight y : ℚ) : ℚ :=
  interpolate (max 0 (agendaHeight viewHeight - HEADER_HEIGHT))
    (agendaHeight viewHeight) (-HEADER_HEIGHT) 0 y

/-- The `contentTranslate` interpolation of `render` (lines 295–299). -/
def contentTranslate (viewHeight y : ℚ) : ℚ :=
  interpolate 0 (agendaHeight viewHeight) 0 (agendaHeight viewHeight / 2) y

/-- Lower bound of the week-day opacity interpolation's input range
(line 276): `agendaHeight - HEADER_HEIGHT`, written without clamping. -/
def opacityInputLow (viewHeight : ℚ) : ℚ :=
  agendaHeight viewHeight - HEADER_HEIGHT

/-- Lower bound of the week-day translate interpolation's input range
(line 282): `Math.max(0, agendaHeight - HEADER_HEIGHT)`. -/
def weekdaysTranslateInputLow (viewHeight : ℚ) : ℚ :=
  max 0 (agendaHeight viewHeight - HEADER_HEIGHT)

/-! ## The view-state machine, timers and callback effects -/

/-- An already-parsed date value (an `XDate`). Date arithmetic, cloning and
formatting are delegated to the external date library (a spec non-goal), so
dates are opaque carriers embedded as `Nat`. -/
abbrev DateValue : Type := Nat

/-- Modelled from the spec: `xdateToData` lives in `src/interface`, which is
not under `src/`; it converts an `XDate` into the plain date-data record
handed to callbacks. Its payload is carried unchanged. -/
def xdateToData (d : DateValue) : DateValue := d

/-- Modelled from the spec: the `selected` prop is either parseable to a
date or not. -/
inductive PropDate where
  | parseable : DateValue → PropDate
  | unparseable : PropDate
deriving DecidableEq, Repr

/-- Modelled from the spec: `parseDate` lives in `src/interface`, which is
not under `src/`; per the spec it yields the parse of its argument when that
is provided and parseable, and a falsy value otherwise. -/
def parseDate : Option PropDate → Option DateValue
  | some (.parseable d) => some d
  | _ => none

/-- The component's persistent state: the `this.state` fields the claims
concern (`calendarIsReady`, `calendarScrollable`, `firstResevationLoad`,
`selectedDay`, `topDay` — the animated `scrollY` value is owned by the host
framework) together with the instance fields `this._isMounted` and
`this.scrollTimeout` (the id of the pending month-load timer). -/
structure AgendaState where
  calendarIsReady : Bool
  calendarScrollable : Bool
  firstResevationLoad : Bool
  selectedDay : DateValue
  topDay : DateValue
  isMounted : Bool
  scrollTimeout : Option Nat
deriving DecidableEq, Repr

/-- The state initialization of the constructor (`src/agenda/index.js`
lines 90–99): `selectedDay` and `topDay` are both
`parseDate(this.props.selected) || XDate(true)`, where `today` stands for
`XDate(true)`; `scrollTimeout` is `undefined`; `_isMounted` is not yet set
(it becomes `true` in `componentWillMount`). -/
def initialAgendaState (selected : Option PropDate) (today : DateValue) :
    AgendaState where
  calendarIsReady := false
  calendarScrollable := false
  firstResevationLoad := false
  selectedDay := (parseDate selected).getD today
  topDay := (parseDate selected).getD today
  isMounted := false
  scrollTimeout := none

/-- The props the claims concern: presence of the three optional callbacks,
and the `items` prop. -/
structure Props where
  onDayPress : Bool
  onCalendarToggled : Bool
  loadItemsForMonth : Bool
  items : Option (Obj ItemsVal)
deriving DecidableEq, Repr

/-- Argument handed to `loadItemsForMonth`: either a day's date data
(`xdateToData(day)`) or `months[0]` (which is `undefined` — `none` — when
`months` is empty). -/
inductive LoadArg where
  | date : DateValue → LoadArg
  | month : Option DateValue → LoadArg
deriving DecidableEq, Repr

/-- Observable effects of an operation, in order: callback invocations and
imperative view commands. -/
inductive Eff where
  | onDayPress : DateValue → Eff
  | onCalendarToggled : Bool → Eff
  | loadItems : LoadArg → Eff
  | scrollPadTo : ℚ → Bool → Eff
  | scrollCalendarToDay : DateValue → Eff
deriving DecidableEq, Repr

/-- The deferred (`setTimeout`) continuations appearing in the source: the
body of the 500 ms timer of `enableCalendarScrolling` (which scrolls and
schedules the nested 500 ms notification), a pending
`onCalendarToggled(b)` notification, and the 200 ms month-load timer of
`onVisibleMonthsChange` carrying its `months` argument. -/
inductive TAct where
  | scrollToSelectedThenNotify : TAct
  | notifyToggled : Bool → TAct
  | loadMonths : List DateValue → TAct
deriving DecidableEq, Repr

/-- A pending timer: its id (as returned by `setTimeout`), its delay in
milliseconds, and its continuation. -/
structure PTimer where
  id : Nat
  delay : Nat
  act : TAct
deriving DecidableEq, Repr

/-- The host's timer table: pending timers and the next fresh id. -/
structure TimerSys where
  pending : List PTimer
  nextId : Nat
deriving DecidableEq, Repr

/-- `setTimeout(action, delay)`: appends a fresh pending timer and returns
its id. -/
def TimerSys.schedule (ts : TimerSys) (delay : Nat) (a : TAct) :
    TimerSys × Nat :=
  ({ pending := ts.pending ++ [⟨ts.nextId, delay, a⟩], nextId := ts.nextId + 1 },
   ts.nextId)

/-- `clearTimeout(idv)`: removes the pending timer with that id;
`clearTimeout(undefined)` (`idv = none`) is a no-op. -/
def TimerSys.clear (ts : TimerSys) (idv : Option Nat) : TimerSys :=
  { ts with pending := ts.pending.filter (fun t => decide (some t.id ≠ idv)) }

/-- Result of one synchronous operation: the new component state, the new
timer table, and the effects emitted, in order. -/
structure StepOut where
  state : AgendaState
  timers : TimerSys
  effs : List Eff
deriving DecidableEq, Repr

/-- `enableCalendarScrolling` (lines 185–199): sets `calendarScrollable` and
schedules the 500 ms animation-sequencing timer; the calendar scroll and the
nested `onCalendarToggled(true)` notification happen in the deferred steps
(see `fireAction`). -/
def enableCalendarScrolling (s : AgendaState) (ts : TimerSys) : StepOut where
  state := { s with calendarScrollable := true }
  timers := (ts.schedule 500 .scrollToSelectedThenNotify).1
  effs := []

/-- `expandCalendar` (lines 176–179): `enableCalendarScrolling()` then
`setScrollPadPosition(0, true)`. -/
def expandCalendar (s : AgendaState) (ts : TimerSys) : StepOut :=
  let o := enableCalendarScrolling s ts
  { o with effs := o.effs ++ [.scrollPadTo 0 true] }

/-- `chooseDay` (lines 205–232): when entered while scrollable, schedules the
1000 ms `onCalendarToggled(false)` notification; sets
`calendarScrollable := false` and the selected day; resets the scroll pad;
then invokes `loadItemsForMonth` and `onDayPress` when provided. The day
argument is already parsed (`parseDate(d)` / `day.clone()` in the source);
`vh` is `this.viewHeight`. -/
def chooseDay (props : Props) (vh : ℚ) (s : AgendaState) (ts : TimerSys)
    (d : DateValue) : StepOut where
  state := { s with calendarScrollable := false, selectedDay := d }
  timers :=
    if s.calendarScrollable then (ts.schedule 1000 (.notifyToggled false)).1
    else ts
  effs :=
    [.scrollPadTo (initialScrollPadPosition vh) false]
      ++ (if props.loadItemsForMonth then [.loadItems (.date (xdateToData d))]
          else [])
      ++ (if props.onDayPress then [.onDayPress (xdateToData d)] else [])

/-- `compactCalendar` (lines 181–183): `chooseDay(this.state.selectedDay)`. -/
def compactCalendar (props : Props) (vh : ℚ) (s : AgendaState)
    (ts : TimerSys) : StepOut :=
  chooseDay props vh s ts s.selectedDay

/-- `shouldAllowDragging` in `render` (line 313):
`!this.state.calendarScrollable`. -/
def shouldAllowDragging (s : AgendaState) : Bool := !s.calendarScrollable

/-- Run a fired timer's continuation (the bodies of the `setTimeout`
callbacks in the source), reading the component state and props at firing
time. -/
def fireAction (props : Props) (s : AgendaState) (ts : TimerSys) :
    TAct → StepOut
  | .scrollToSelectedThenNotify =>
    { state := s
      timers := (ts.schedule 500 (.notifyToggled true)).1
      effs := [.scrollCalendarToDay s.selectedDay] }
  | .notifyToggled b =>
    { state := s
      timers := ts
      effs := if props.onCalendarToggled then [.onCalendarToggled b] else [] }
  | .loadMonths months =>
    { state := s
      timers := ts
      effs :=
        if props.loadItemsForMonth && s.isMounted then
          [.loadItems (.month months.head?)]
        else [] }

/-- A timer firing: it is removed from the pending table and its
continuation runs. -/
def fireTimer (props : Props) (s : AgendaState) (ts : TimerSys)
    (idv : Nat) : StepOut :=
  match ts.pending.find? (fun t => t.id = idv) with
  | none => { state := s, timers := ts, effs := [] }
  | some t => fireAction props s (ts.clear (some idv)) t.act

/-- `onVisibleMonthsChange` (lines 134–143): when items are present and the
first reservation load has not happened, clears the pending month-load timer
(`clearTimeout(this.scrollTimeout)`) and schedules a fresh 200 ms one,
remembering its id in `this.scrollTimeout`. -/
def onVisibleMonthsChange (props : Props) (s : AgendaState) (ts : TimerSys)
    (months : List DateValue) : AgendaState × TimerSys :=
  if props.items.isSome && !s.firstResevationLoad then
    let ts₁ := ts.clear s.scrollTimeout
    let r := ts₁.schedule 200 (.loadMonths months)
    ({ s with scrollTimeout := some r.2 }, r.1)
  else (s, ts)

/-- `componentWillUnmount` (lines 162–164): clears only the mounted flag;
pending timers are not cancelled. -/
def componentWillUnmount (s : AgendaState) (ts : TimerSys) :
    AgendaState × TimerSys :=
  ({ s with isMounted := false }, ts)

/-- `loadReservations` (lines 145–155): when items are absent or empty and
the first reservation load has not happened, marks it done and invokes
`loadItemsForMonth(xdateToData(this.state.selectedDay))` when provided. -/
def loadReservations (props : Props) (s : AgendaState) :
    AgendaState × List Eff :=
  if (props.items.isNone || (props.items.getD []).keys.isEmpty)
      && !s.firstResevationLoad then
    ({ s with firstResevationLoad := true },
     if props.loadItemsForMonth then
       [.loadItems (.date (xdateToData s.selectedDay))]
     else [])
  else (s, [])

/-- A pending timer is a deferred month-load. -/
def isLoadTimer (t : PTimer) : Bool :=
  match t.act with
  | .loadMonths _ => true
  | _ => false

/-- The month-load timer discipline invariant: at most one month-load timer
is pending, every pending month-load timer's id is the one remembered in
`this.scrollTimeout`, and all pending ids are in range of the id supply. -/
def LoadInv (s : AgendaState) (ts : TimerSys) : Prop :=
  (ts.pending.filter isLoadTimer).length ≤ 1
  ∧ (∀ t ∈ ts.pending, isLoadTimer t = true → some t.id = s.scrollTimeout)
  ∧ (∀ t ∈ ts.pending, t.id < ts.nextId)

/-! ## Theorems -/

namespace Obj

theorem lookup_nil (k : String) : lookup ([] : Obj α) k = none := rfl

theorem keys_cons (p : String × α) (o : Obj α) :
    keys (p :: o) = p.1 :: keys o := rfl

theorem not_head_of_not_mem_keys {p : String × α} {o : Obj α} {k : String}
    (h : k ∉ keys (p :: o)) : ¬ p.1 = k := by
  intro hc
  exact h (by rw [keys_cons, ← hc]; exact List.mem_cons_self _ _)

theorem not_tail_of_not_mem_keys {p : String × α} {o : Obj α} {k : String}
    (h : k ∉ keys (p :: o)) : k ∉ keys o := by
  intro hc
  exact h (by rw [keys_cons]; exact List.mem_cons_of_mem _ hc)

theorem lookup_eq_none (o : Obj α) (k : String) (h : k ∉ keys o) :
    lookup o k = none := by
  induction o with
  | nil => rfl
  | cons p o ih =>
    have hp := not_head_of_not_mem_keys h
    have hk := not_tail_of_not_mem_keys h
    simpa [lookup, List.find?_cons_of_neg, hp] using ih hk

theorem exists_lookup_of_mem (o : Obj α) (k : String) (h : k ∈ keys o) :
    ∃ v, lookup o k = some v := by
  induction o with
  | nil => simp [keys] at h
  | cons p o ih =>
    by_cases hp : p.1 = k
    · exact ⟨p.2, by simp [lookup, List.find?_cons_of_pos, hp]⟩
    · have hk : k ∈ keys o := by
        rw [keys_cons] at h
        rcases List.mem_cons.1 h with h | h
        · exact absurd h.symm hp
        · exact h
      rcases ih hk with ⟨v, hv⟩
      exact ⟨v, by simpa [lookup, List.find?_cons_of_neg, hp] using hv⟩

theorem lookup_replaceAll_self (o : Obj α) (k : String) (v : α) :
    lookup (o.map (fun p => if p.1 = k then (k, v) else p)) k =
      (lookup o k).map (fun _ => v) := by
  induction o with
  | nil => rfl
  | cons p o ih =>
    by_cases hp : p.1 = k
    · simp [lookup, hp, List.find?_cons_of_pos]
    · simpa [lookup, hp, List.find?_cons_of_neg] using ih

theorem lookup_replaceAll_ne (o : Obj α) (k k' : String) (v : α)
    (hne : k' ≠ k) :
    lookup (o.map (fun p => if p.1 = k then (k, v) else p)) k' = lookup o k' := by
  induction o with
  | nil => rfl
  | cons p o ih =>
    by_cases hp : p.1 = k
    · have h1 : ¬ k = k' := fun hc => hne hc.symm
      have h2 : ¬ p.1 = k' := fun hc => h1 (hp.symm.trans hc)
      rw [List.map_cons, if_pos hp]
      simpa [lookup, List.find?_cons_of_neg, h1, h2] using ih
    · rw [List.map_cons, if_neg hp]
      by_cases hq : p.1 = k'
      · simp [lookup, hq, List.find?_cons_of_pos]
      · simpa [lookup, hq, List.find?_cons_of_neg] using ih

theorem lookup_append_single_self (o : Obj α) (k : String) (v : α)
    (h : k ∉ keys o) :
    lookup (o ++ [(k, v)]) k = some v := by
  induction o with
  | nil => simp [lookup, List.find?_cons_of_pos]
  | cons p o ih =>
    have hp := not_head_of_not_mem_keys h
    have hk := not_tail_of_not_mem_keys h
    simpa [lookup, List.find?_cons_of_neg, hp] using ih hk

theorem lookup_append_single_ne (o : Obj α) (k k' : String) (v : α)
    (hne : k' ≠ k) :
    lookup (o ++ [(k, v)]) k' = lookup o k' := by
  induction o with
  | nil =>
    have h1 : ¬ k = k' := fun hc => hne hc.symm
    simp [lookup, List.find?_cons_of_neg, h1]
  | cons p o ih =>
    by_cases hq : p.1 = k'
    · simp [lookup, hq, List.find?_cons_of_pos]
    · simpa [lookup, hq, List.find?_cons_of_neg] using ih

theorem lookup_setKey_self (o : Obj α) (k : String) (v : α) :
    lookup (setKey o k v) k = some v := by
  unfold setKey
  split
  case isTrue h =>
    rcases exists_lookup_of_mem o k h with ⟨w, hw⟩
    rw [lookup_replaceAll_self, hw]
    rfl
  case isFalse h =>
    exact lookup_append_single_self o k v h

theorem lookup_setKey_ne (o : Obj α) (k k' : String) (v : α) (hne : k' ≠ k) :
    lookup (setKey o k v) k' = lookup o k' := by
  unfold setKey
  split
  · exact lookup_replaceAll_ne o k k' v hne
  · exact lookup_append_single_ne o k k' v hne

/-- Looking a key up in a list that binds every key of `l` to the constant
value `m`. -/
theorem lookup_map_const (l : List String) (m : α) (k : String) :
    lookup (l.map (fun k => (k, m))) k = if k ∈ l then some m else none := by
  induction l with
  | nil => rfl
  | cons a l ih =>
    by_cases ha : a = k
    · simp [lookup, List.find?_cons_of_pos, ha]
    · have : (k ∈ a :: l) = (k ∈ l) := by
        simp [List.mem_cons]
        intro hc
        exact absurd hc.symm ha
      simpa [lookup, List.find?_cons_of_neg, ha, this] using ih

end Obj
theorem lookup_itemsToMarkings (items : Obj ItemsVal) (k : String) :
    (itemsToMarkings items).lookup k =
      if truthyNonEmpty (items.lookup k) then some { marked := some true }
      else none := by
  unfold itemsToMarkings
  rw [Obj.lookup_map_const]
  by_cases ht : truthyNonEmpty (items.lookup k) = true
  · have hk : k ∈ Obj.keys items := by
      by_contra hk
      rw [Obj.lookup_eq_none items k hk] at ht
      simp [truthyNonEmpty] at ht
    simp [ht, List.mem_filter, hk]
  · simp [ht, List.mem_filter]

/-- Key-wise description of the object returned by `generateMarkings`: the
selected-day key is bound to its previous binding (in `markedDates` when
provided, otherwise in the item-derived markings) spread-merged with
`{selected: true}`; every other key keeps its binding from that base map. -/
theorem lookup_generateMarkings (items : Option (Obj ItemsVal))
    (md : Option (Obj Marking)) (sel k : String) :
    (generateMarkings items md sel).lookup k =
      if k = sel then
        some (Marking.withSelected
          (((md.getD (itemsToMarkings (items.getD []))).lookup sel).getD {}))
      else (md.getD (itemsToMarkings (items.getD []))).lookup k := by
  by_cases hk : k = sel
  · subst hk
    cases md <;> simp [generateMarkings, Obj.lookup_setKey_self]
  · cases md <;> simp [generateMarkings, hk, Obj.lookup_setKey_ne _ sel k _ hk]

/-- **C1.** `generateMarkings` performs date-keyed marking aggregation: with
the `markedDates` prop absent, the keys of the returned map carrying
`marked: true` are exactly the keys of `items` whose value is a non-empty
list (this also covers an absent `items` prop, where no key is marked); and
in every case (any `markedDates`), the returned map binds the selected-day
key to its previous binding augmented — not replaced — with
`selected: true`. -/
theorem generateMarkings_aggregation (items : Obj ItemsVal)
    (md : Option (Obj Marking)) (sel : String) :
    (∀ k, hasMarkedTrue (generateMarkings (some items) none sel) k ↔
        truthyNonEmpty (items.lookup k) = true)
    ∧ (∀ k, ¬ hasMarkedTrue (generateMarkings none none sel) k)
    ∧ (generateMarkings (some items) md sel).lookup sel =
        some (Marking.withSelected
          (((md.getD (itemsToMarkings items)).lookup sel).getD {})) := by
  refine ⟨fun k => ?_, fun k => ?_, ?_⟩
  · rw [hasMarkedTrue, lookup_generateMarkings]
    simp only [Option.getD_none, Option.getD_some]
    by_cases hk : k = sel
    · subst hk
      rw [if_pos rfl, lookup_itemsToMarkings]
      by_cases ht : truthyNonEmpty (items.lookup k) = true
      · simp [ht, Marking.withSelected]
      · simp [ht, Marking.withSelected]
    · rw [if_neg hk, lookup_itemsToMarkings]
      by_cases ht : truthyNonEmpty (items.lookup k) = true
      · simp [ht]
      · simp [ht]
  · rw [hasMarkedTrue, lookup_generateMarkings]
    by_cases hk : k = sel
    · subst hk
      simp [itemsToMarkings, Obj.keys, Obj.lookup_nil, Marking.withSelected]
    · simp [hk, itemsToMarkings, Obj.keys, Obj.lookup_nil]
  · rw [lookup_generateMarkings, if_pos rfl]
    rfl

/-- Witness for C1 at concrete inputs: one non-empty item list, one empty
one, and the selected day keyed off the empty one. -/
theorem generateMarkings_aggregation_witness :
    (∀ k, hasMarkedTrue (generateMarkings
        (some ([("2024-01-01", some [1]), ("2024-01-02", some [])] : Obj ItemsVal))
        none "2024-01-02") k ↔
        truthyNonEmpty (Obj.lookup
          ([("2024-01-01", some [1]), ("2024-01-02", some [])] : Obj ItemsVal)
          k) = true)
    ∧ (∀ k, ¬ hasMarkedTrue (generateMarkings none none "2024-01-02") k)
    ∧ Obj.lookup (generateMarkings
        (some ([("2024-01-01", some [1]), ("2024-01-02", some [])] : Obj ItemsVal))
        (some ([("2024-01-03", { marked := some false })] : Obj Marking))
        "2024-01-02") "2024-01-02" =
        some (Marking.withSelected
          ((Obj.lookup ((some ([("2024-01-03", { marked := some false })] : Obj Marking)).getD
              (itemsToMarkings
                ([("2024-01-01", some [1]), ("2024-01-02", some [])] : Obj ItemsVal)))
            "2024-01-02").getD {})) :=
  generateMarkings_aggregation
    ([("2024-01-01", some [1]), ("2024-01-02", some [])] : Obj ItemsVal)
    (some ([("2024-01-03", { marked := some false })] : Obj Marking)) "2024-01-02"

/-- **C9.** When the `markedDates` prop is provided, item-derived markings
are suppressed entirely: the returned map is exactly `markedDates` with only
the selected-day entry spread-merged with `selected: true`, and the result
does not depend on `items` at all. -/
theorem generateMarkings_markedDates_override (items : Option (Obj ItemsVal))
    (md : Obj Marking) (sel : String) :
    (∀ k, k ≠ sel →
        (generateMarkings items (some md) sel).lookup k = md.lookup k)
    ∧ (generateMarkings items (some md) sel).lookup sel =
        some (Marking.withSelected ((md.lookup sel).getD {}))
    ∧ (∀ items', generateMarkings items (some md) sel =
        generateMarkings items' (some md) sel) := by
  refine ⟨fun k hk => ?_, ?_, fun items' => rfl⟩
  · rw [lookup_generateMarkings, if_neg hk, Option.getD_some]
  · rw [lookup_generateMarkings, if_pos rfl, Option.getD_some]

/-- Witness for C9 at concrete inputs: `markedDates` provided while an item
list is non-empty. -/
theorem generateMarkings_markedDates_override_witness :
    (∀ k, k ≠ "2024-01-05" →
        Obj.lookup (generateMarkings
          (some ([("2024-01-01", some [1])] : Obj ItemsVal))
          (some ([("2024-01-05", { marked := some true })] : Obj Marking))
          "2024-01-05") k =
        Obj.lookup ([("2024-01-05", { marked := some true })] : Obj Marking) k)
    ∧ Obj.lookup (generateMarkings
        (some ([("2024-01-01", some [1])] : Obj ItemsVal))
        (some ([("2024-01-05", { marked := some true })] : Obj Marking))
        "2024-01-05") "2024-01-05" =
        some (Marking.withSelected
          ((Obj.lookup ([("2024-01-05", { marked := some true })] : Obj Marking)
            "2024-01-05").getD {}))
    ∧ (∀ items', generateMarkings
        (some ([("2024-01-01", some [1])] : Obj ItemsVal))
        (some ([("2024-01-05", { marked := some true })] : Obj Marking))
        "2024-01-05" =
        generateMarkings items'
          (some ([("2024-01-05", { marked := some true })] : Obj Marking))
          "2024-01-05") :=
  generateMarkings_markedDates_override
    (some ([("2024-01-01", some [1])] : Obj ItemsVal))
    ([("2024-01-05", { marked := some true })] : Obj Marking) "2024-01-05"

theorem Heap.get_append_lt (h : Heap) (o : Obj JVal) (r : Nat)
    (hr : r < h.length) : Heap.get (h ++ [o]) r = Heap.get h r := by
  unfold Heap.get
  rw [List.getElem?_append_left hr]

theorem Heap.length_setField (h : Heap) (r : Nat) (k : String) (v : JVal) :
    (Heap.setField h r k v).length = h.length := by
  unfold Heap.setField
  exact List.length_set h r _

theorem Heap.get_setField_ne (h : Heap) (r r' : Nat) (k : String) (v : JVal)
    (hne : r' ≠ r) : Heap.get (Heap.setField h r k v) r' = Heap.get h r' := by
  unfold Heap.setField Heap.get
  rw [List.getElem?_set_ne (fun hc => hne hc.symm)]

/-- The write loop only ever writes to `mr`. -/
theorem get_writeMarks_ne (ks : List String) (mr : Nat) (h : Heap) (r : Nat)
    (hne : r ≠ mr) : Heap.get (writeMarks h mr ks) r = Heap.get h r := by
  unfold writeMarks
  induction ks generalizing h with
  | nil => rfl
  | cons a ks ih =>
    rw [List.foldl_cons, ih, Heap.get_setField_ne _ _ _ _ _ hne]

theorem length_writeMarks (ks : List String) (mr : Nat) (h : Heap) :
    (writeMarks h mr ks).length = h.length := by
  unfold writeMarks
  induction ks generalizing h with
  | nil => rfl
  | cons a ks ih =>
    rw [List.foldl_cons, ih, Heap.length_setField]

theorem buildFreshMarkings_frame (h : Heap) (ks : List String) (sel : String)
    (r : Nat) (hr : r < h.length) :
    Heap.get (buildFreshMarkings h ks sel).1 r = Heap.get h r
    ∧ h.length ≤ (buildFreshMarkings h ks sel).2 := by
  have h2len : (writeMarks (h ++ [[]]) h.length ks).length = h.length + 1 := by
    rw [length_writeMarks]
    simp
  constructor
  · show Heap.get (writeMarks (h ++ [[]]) h.length ks ++ [_]) r = Heap.get h r
    rw [Heap.get_append_lt _ _ r (by omega),
      get_writeMarks_ne _ _ _ r (by omega),
      Heap.get_append_lt h _ r hr]
  · show h.length ≤ (writeMarks (h ++ [[]]) h.length ks).length
    omega

/-- **C7.** `generateMarkings` never mutates its externally supplied inputs:
every object already on the heap — in particular the objects referenced by
`props.items` and `props.markedDates` — is unchanged after the call, and the
returned reference is a freshly allocated object, not a pre-existing one. -/
theorem generateMarkingsH_frame (h : Heap) (itemsRef mdRef : Option Nat)
    (sel : String) (r : Nat) (hr : r < h.length) :
    Heap.get (generateMarkingsH h itemsRef mdRef sel).1 r = Heap.get h r
    ∧ h.length ≤ (generateMarkingsH h itemsRef mdRef sel).2 := by
  cases mdRef with
  | some mdr =>
    refine ⟨?_, le_refl _⟩
    exact Heap.get_append_lt h _ r hr
  | none =>
    exact buildFreshMarkings_frame h _ sel r hr

theorem clampQ_mono (lo hi x x' : ℚ) (h : x ≤ x') :
    clampQ x lo hi ≤ clampQ x' lo hi := by
  unfold clampQ
  exact min_le_min (le_refl _) (max_le_max (le_refl _) h)

/-- Clamping then affinely rescaling a 94-wide window to `[0, 1]` is the
same as rescaling and then clamping to `[0, 1]`. -/
theorem clampQ_affine (a y : ℚ) :
    (clampQ y a (a + 94) - a) / 94 = clampQ ((y - a) / 94) 0 1 := by
  unfold clampQ
  rcases le_total y a with h | h
  · have h1 : (y - a) / 94 ≤ 0 := by
      rw [div_le_iff₀ (show (0:ℚ) < 94 by norm_num)]
      linarith
    rw [max_eq_left h, min_eq_right (by linarith : a ≤ a + 94),
      max_eq_left h1, min_eq_right (by norm_num : (0:ℚ) ≤ 1)]
    ring
  · rw [max_eq_right h]
    rcases le_total y (a + 94) with h2 | h2
    · have h3 : (0:ℚ) ≤ (y - a) / 94 := div_nonneg (by linarith) (by norm_num)
      have h4 : (y - a) / 94 ≤ 1 := by
        rw [div_le_one (show (0:ℚ) < 94 by norm_num)]
        linarith
      rw [min_eq_right h2, max_eq_right h3, min_eq_right h4]
    · have h3 : (1:ℚ) ≤ (y - a) / 94 := by
        rw [le_div_iff₀ (show (0:ℚ) < 94 by norm_num)]
        linarith
      rw [min_eq_left h2, max_eq_right (by linarith : (0:ℚ) ≤ (y - a) / 94),
        min_eq_left h3]
      ring

/-- **C4.** The drag-to-header mapping is a clamped linear interpolation of
the scroll pad's offset `y`: with `agendaHeight = max(0, viewHeight - 94)`,
the header translate equals `agendaHeight - clamp(y, 0, agendaHeight)` —
decreasing monotonically from `agendaHeight` at `y = 0` to `0` at
`y = agendaHeight` — and the week-day row's opacity equals
`(y - (agendaHeight - 94)) / 94` clamped to `[0, 1]`. -/
theorem drag_to_header_mapping (vh y : ℚ) :
    agendaHeight vh = max 0 (vh - 94)
    ∧ headerTranslate vh y = agendaHeight vh - clampQ y 0 (agendaHeight vh)
    ∧ headerTranslate vh 0 = agendaHeight vh
    ∧ headerTranslate vh (agendaHeight vh) = 0
    ∧ (∀ y₁ y₂, y₁ ≤ y₂ → headerTranslate vh y₂ ≤ headerTranslate vh y₁)
    ∧ weekdaysOpacity vh y =
        clampQ ((y - (agendaHeight vh - HEADER_HEIGHT)) / HEADER_HEIGHT) 0 1 := by
  have hA : (0:ℚ) ≤ agendaHeight vh := le_max_left _ _
  have hmain : ∀ z, headerTranslate vh z =
      agendaHeight vh - clampQ z 0 (agendaHeight vh) := by
    intro z
    unfold headerTranslate interpolate
    by_cases hA0 : agendaHeight vh = 0
    · rw [if_pos hA0, hA0]
      unfold clampQ
      rw [min_eq_left (le_max_left _ _)]
      ring
    · rw [if_neg (by simpa using hA0)]
      field_simp
      ring
  refine ⟨rfl, hmain y, ?_, ?_, ?_, ?_⟩
  · rw [hmain 0]
    unfold clampQ
    rw [max_self, min_eq_right hA]
    ring
  · rw [hmain (agendaHeight vh)]
    unfold clampQ
    rw [max_eq_right hA, min_self]
    ring
  · intro y₁ y₂ h
    rw [hmain y₁, hmain y₂]
    have := clampQ_mono 0 (agendaHeight vh) y₁ y₂ h
    linarith
  · unfold weekdaysOpacity interpolate
    have h94 : ¬ agendaHeight vh = agendaHeight vh - HEADER_HEIGHT := by
      unfold HEADER_HEIGHT
      intro hc
      linarith [congrArg (fun t => t) hc]
    rw [if_neg h94]
    have ha : agendaHeight vh = (agendaHeight vh - HEADER_HEIGHT) + 94 := by
      unfold HEADER_HEIGHT
      ring
    calc 0 + (clampQ y (agendaHeight vh - HEADER_HEIGHT) (agendaHeight vh)
            - (agendaHeight vh - HEADER_HEIGHT)) * (1 - 0) /
            (agendaHeight vh - (agendaHeight vh - HEADER_HEIGHT))
        = (clampQ y (agendaHeight vh - HEADER_HEIGHT)
            ((agendaHeight vh - HEADER_HEIGHT) + 94)
            - (agendaHeight vh - HEADER_HEIGHT)) / 94 := by
          rw [← ha]
          unfold HEADER_HEIGHT
          ring
      _ = clampQ ((y - (agendaHeight vh - HEADER_HEIGHT)) / 94) 0 1 :=
          clampQ_affine (agendaHeight vh - HEADER_HEIGHT) y
      _ = clampQ ((y - (agendaHeight vh - HEADER_HEIGHT)) / HEADER_HEIGHT) 0 1 :=
          rfl

/-- Witness for C4 at a concrete view height and scroll offset. -/
theorem drag_to_header_mapping_witness :
    agendaHeight 500 = max 0 (500 - 94)
    ∧ headerTranslate 500 300 = agendaHeight 500 - clampQ 300 0 (agendaHeight 500)
    ∧ headerTranslate 500 0 = agendaHeight 500
    ∧ headerTranslate 500 (agendaHeight 500) = 0
    ∧ (∀ y₁ y₂, y₁ ≤ y₂ → headerTranslate 500 y₂ ≤ headerTranslate 500 y₁)
    ∧ weekdaysOpacity 500 300 =
        clampQ ((300 - (agendaHeight 500 - HEADER_HEIGHT)) / HEADER_HEIGHT) 0 1 :=
  drag_to_header_mapping 500 300

/-- **C10 counterexample.** At `viewHeight = 100` (below the 188 needed for
`agendaHeight ≥ 94`) the week-day opacity interpolation's input range has a
negative lower bound: `agendaHeight - 94 = 6 - 94 = -88 < 0`, so it is not
the case that the interpolation input ranges never involve negative
bounds. -/
theorem opacityInputLow_neg_at_100 :
    opacityInputLow 100 = -88 ∧ opacityInputLow 100 < 0 := by
  constructor <;> norm_num [opacityInputLow, agendaHeight, HEADER_HEIGHT]

/-- **C10 (amended).** The derived heights are clamped at zero: for every
`viewHeight` (including values below the 94-unit header height),
`initialScrollPadPosition() = max(0, viewHeight - 94)` and the `agendaHeight`
computed in `render` are both non-negative, as is the week-day translate
input-range lower bound `max(0, agendaHeight - 94)`; however the week-day
opacity input-range lower bound is the unclamped `agendaHeight - 94`, which
is negative exactly when `viewHeight < 188`. -/
theorem clamped_heights_nonneg (vh : ℚ) :
    initialScrollPadPosition vh = max 0 (vh - 94)
    ∧ 0 ≤ initialScrollPadPosition vh
    ∧ 0 ≤ agendaHeight vh
    ∧ 0 ≤ weekdaysTranslateInputLow vh
    ∧ (vh < 188 → opacityInputLow vh < 0)
    ∧ (188 ≤ vh → 0 ≤ opacityInputLow vh) := by
  refine ⟨rfl, le_max_left _ _, le_max_left _ _, le_max_left _ _, ?_, ?_⟩
  · intro h
    unfold opacityInputLow agendaHeight HEADER_HEIGHT
    have : max 0 (vh - 94) < 94 := max_lt (by norm_num) (by linarith)
    linarith
  · intro h
    unfold opacityInputLow agendaHeight HEADER_HEIGHT
    have : vh - 94 ≤ max 0 (vh - 94) := le_max_right _ _
    linarith

/-- Witness for the amended C10 at `viewHeight = 100`. -/
theorem clamped_heights_nonneg_witness :
    initialScrollPadPosition 100 = max 0 (100 - 94)
    ∧ 0 ≤ initialScrollPadPosition 100
    ∧ 0 ≤ agendaHeight 100
    ∧ 0 ≤ weekdaysTranslateInputLow 100
    ∧ ((100:ℚ) < 188 → opacityInputLow 100 < 0)
    ∧ ((188:ℚ) ≤ 100 → 0 ≤ opacityInputLow 100) :=
  clamped_heights_nonneg 100

/-- Witness for C7 at a concrete heap: `props.items` at reference 0 and
`props.markedDates` at reference 1 are untouched, and the result is fresh. -/
theorem generateMarkingsH_frame_witness :
    Heap.get (generateMarkingsH
        [[("2024-01-01", JVal.arr [7])], [("2024-01-02", JVal.mark {})]]
        (some 0) (some 1) "2024-01-02").1 0 =
      Heap.get [[("2024-01-01", JVal.arr [7])], [("2024-01-02", JVal.mark {})]] 0
    ∧ ([[("2024-01-01", JVal.arr [7])],
        [("2024-01-02", JVal.mark {})]] : Heap).length ≤
      (generateMarkingsH
        [[("2024-01-01", JVal.arr [7])], [("2024-01-02", JVal.mark {})]]
        (some 0) (some 1) "2024-01-02").2 :=
  generateMarkingsH_frame
    [[("2024-01-01", JVal.arr [7])], [("2024-01-02", JVal.mark {})]]
    (some 0) (some 1) "2024-01-02" 0 (by decide)

/-- **C2.** The view-state machine has exactly two states, held in the
boolean `calendarScrollable`: `expandCalendar` (via
`enableCalendarScrolling`) sets it `true`, `chooseDay` and `compactCalendar`
set it `false`, no operation produces a third state (the field is a
boolean, so every reachable state is `true` or `false`), and drag capture
(`shouldAllowDragging`) is enabled exactly when it is `false`. -/
theorem two_state_machine (props : Props) (vh : ℚ) (s : AgendaState)
    (ts : TimerSys) (d : DateValue) :
    (expandCalendar s ts).state.calendarScrollable = true
    ∧ (enableCalendarScrolling s ts).state.calendarScrollable = true
    ∧ (chooseDay props vh s ts d).state.calendarScrollable = false
    ∧ (compactCalendar props vh s ts).state.calendarScrollable = false
    ∧ (shouldAllowDragging s = true ↔ s.calendarScrollable = false)
    ∧ (s.calendarScrollable = true ∨ s.calendarScrollable = false) := by
  refine ⟨rfl, rfl, rfl, rfl, ?_, ?_⟩
  · cases h : s.calendarScrollable <;> simp [shouldAllowDragging, h]
  · cases s.calendarScrollable
    · exact Or.inr rfl
    · exact Or.inl rfl

/-- **C5.** Expansion sequences its animation steps by fixed-delay timers:
`enableCalendarScrolling` first sets `calendarScrollable := true` and
schedules a 500 ms timer; that timer's continuation scrolls the calendar to
the selected day and schedules a further 500 ms timer, whose continuation
invokes `onCalendarToggled(true)` when provided. Conversely `chooseDay`
schedules the 1000 ms `onCalendarToggled(false)` notification exactly when
entered while `calendarScrollable` is `true`, and emits no toggle callback
itself. -/
theorem expand_compact_timing (props : Props) (vh : ℚ) (s s' : AgendaState)
    (ts ts' : TimerSys) (d : DateValue) :
    (enableCalendarScrolling s ts).state.calendarScrollable = true
    ∧ (enableCalendarScrolling s ts).timers.pending =
        ts.pending ++ [⟨ts.nextId, 500, .scrollToSelectedThenNotify⟩]
    ∧ (enableCalendarScrolling s ts).effs = []
    ∧ (fireAction props s' ts' .scrollToSelectedThenNotify).effs =
        [.scrollCalendarToDay s'.selectedDay]
    ∧ (fireAction props s' ts' .scrollToSelectedThenNotify).timers.pending =
        ts'.pending ++ [⟨ts'.nextId, 500, .notifyToggled true⟩]
    ∧ (props.onCalendarToggled = true →
        (fireAction props s' ts' (.notifyToggled true)).effs =
          [.onCalendarToggled true])
    ∧ (s.calendarScrollable = true →
        (chooseDay props vh s ts d).timers.pending =
          ts.pending ++ [⟨ts.nextId, 1000, .notifyToggled false⟩])
    ∧ (s.calendarScrollable = false → (chooseDay props vh s ts d).timers = ts)
    ∧ (∀ b, Eff.onCalendarToggled b ∉ (chooseDay props vh s ts d).effs) := by
  refine ⟨rfl, rfl, rfl, rfl, rfl, ?_, ?_, ?_, ?_⟩
  · intro h
    simp [fireAction, h]
  · intro h
    simp [chooseDay, h, TimerSys.schedule]
  · intro h
    simp [chooseDay, h]
  · intro b
    unfold chooseDay
    split_ifs <;> simp

/-- Witness for C5 at concrete inputs (an expanded state `s`, so the
1000 ms `notifyToggled false` branch of `chooseDay` is exercised). -/
theorem expand_compact_timing_witness :
    (enableCalendarScrolling
        ⟨true, true, false, 3, 3, true, none⟩ ⟨[], 0⟩).state.calendarScrollable = true
    ∧ (enableCalendarScrolling
        ⟨true, true, false, 3, 3, true, none⟩ ⟨[], 0⟩).timers.pending =
        ([] : List PTimer) ++ [⟨0, 500, .scrollToSelectedThenNotify⟩]
    ∧ (enableCalendarScrolling
        ⟨true, true, false, 3, 3, true, none⟩ ⟨[], 0⟩).effs = []
    ∧ (fireAction ⟨true, true, true, none⟩
        ⟨true, true, false, 5, 5, true, none⟩ ⟨[], 1⟩
        .scrollToSelectedThenNotify).effs = [.scrollCalendarToDay 5]
    ∧ (fireAction ⟨true, true, true, none⟩
        ⟨true, true, false, 5, 5, true, none⟩ ⟨[], 1⟩
        .scrollToSelectedThenNotify).timers.pending =
        ([] : List PTimer) ++ [⟨1, 500, .notifyToggled true⟩]
    ∧ (Props.onCalendarToggled ⟨true, true, true, none⟩ = true →
        (fireAction ⟨true, true, true, none⟩
          ⟨true, true, false, 5, 5, true, none⟩ ⟨[], 1⟩
          (.notifyToggled true)).effs = [.onCalendarToggled true])
    ∧ (AgendaState.calendarScrollable ⟨true, true, false, 3, 3, true, none⟩ = true →
        (chooseDay ⟨true, true, true, none⟩ 500
          ⟨true, true, false, 3, 3, true, none⟩ ⟨[], 0⟩ 7).timers.pending =
          ([] : List PTimer) ++ [⟨0, 1000, .notifyToggled false⟩])
    ∧ (AgendaState.calendarScrollable ⟨true, true, false, 3, 3, true, none⟩ = false →
        (chooseDay ⟨true, true, true, none⟩ 500
          ⟨true, true, false, 3, 3, true, none⟩ ⟨[], 0⟩ 7).timers = ⟨[], 0⟩)
    ∧ (∀ b, Eff.onCalendarToggled b ∉
        (chooseDay ⟨true, true, true, none⟩ 500
          ⟨true, true, false, 3, 3, true, none⟩ ⟨[], 0⟩ 7).effs) :=
  expand_compact_timing ⟨true, true, true, none⟩ 500
    ⟨true, true, false, 3, 3, true, none⟩
    ⟨true, true, false, 5, 5, true, none⟩ ⟨[], 0⟩ ⟨[], 1⟩ 7

/-- **C3.** When the optional callbacks `onDayPress`, `loadItemsForMonth`
and `onCalendarToggled` are all absent, every operation that would invoke
them still performs all of its other effects (state update, scroll-pad
reset, timer bookkeeping) and emits no callback invocation: `chooseDay`,
the deferred month-load continuation, the deferred toggle notification, and
`loadReservations`. The null-safe guards in the source make each callback
call site unreachable, so no call of `undefined` is ever attempted. -/
theorem absent_callbacks_safe (props : Props) (vh : ℚ) (s : AgendaState)
    (ts : TimerSys) (d : DateValue) (months : List DateValue) (b : Bool)
    (h1 : props.onDayPress = false) (h2 : props.loadItemsForMonth = false)
    (h3 : props.onCalendarToggled = false) :
    (chooseDay props vh s ts d).effs =
      [.scrollPadTo (initialScrollPadPosition vh) false]
    ∧ (chooseDay props vh s ts d).state =
        { s with calendarScrollable := false, selectedDay := d }
    ∧ (fireAction props s ts (.loadMonths months)).effs = []
    ∧ (fireAction props s ts (.loadMonths months)).state = s
    ∧ (fireAction props s ts (.notifyToggled b)).effs = []
    ∧ (fireAction props s ts (.notifyToggled b)).state = s
    ∧ (loadReservations props s).2 = []
    ∧ (loadReservations props s).1 =
        (if (props.items.isNone || (props.items.getD []).keys.isEmpty)
            && !s.firstResevationLoad
         then { s with firstResevationLoad := true } else s) := by
  refine ⟨?_, rfl, ?_, rfl, ?_, rfl, ?_, ?_⟩
  · simp [chooseDay, h1, h2]
  · simp [fireAction, h2]
  · simp [fireAction, h3]
  · unfold loadReservations
    split
    · simp [h2]
    · rfl
  · unfold loadReservations
    split <;> rfl

/-- Witness for C3 at concrete inputs: all three callbacks absent. -/
theorem absent_callbacks_safe_witness :
    (chooseDay ⟨false, false, false, some []⟩ 500
        ⟨true, true, false, 3, 3, true, none⟩ ⟨[], 0⟩ 7).effs =
      [.scrollPadTo (initialScrollPadPosition 500) false]
    ∧ (chooseDay ⟨false, false, false, some []⟩ 500
        ⟨true, true, false, 3, 3, true, none⟩ ⟨[], 0⟩ 7).state =
        { (⟨true, true, false, 3, 3, true, none⟩ : AgendaState) with
            calendarScrollable := false, selectedDay := 7 }
    ∧ (fireAction ⟨false, false, false, some []⟩
        ⟨true, true, false, 3, 3, true, none⟩ ⟨[], 0⟩ (.loadMonths [4])).effs = []
    ∧ (fireAction ⟨false, false, false, some []⟩
        ⟨true, true, false, 3, 3, true, none⟩ ⟨[], 0⟩ (.loadMonths [4])).state =
        ⟨true, true, false, 3, 3, true, none⟩
    ∧ (fireAction ⟨false, false, false, some []⟩
        ⟨true, true, false, 3, 3, true, none⟩ ⟨[], 0⟩ (.notifyToggled true)).effs = []
    ∧ (fireAction ⟨false, false, false, some []⟩
        ⟨true, true, false, 3, 3, true, none⟩ ⟨[], 0⟩ (.notifyToggled true)).state =
        ⟨true, true, false, 3, 3, true, none⟩
    ∧ (loadReservations ⟨false, false, false, some []⟩
        ⟨true, true, false, 3, 3, true, none⟩).2 = []
    ∧ (loadReservations ⟨false, false, false, some []⟩
        ⟨true, true, false, 3, 3, true, none⟩).1 =
        (if ((Props.items ⟨false, false, false, some []⟩).isNone
              || ((Props.items ⟨false, false, false, some []⟩).getD []).keys.isEmpty)
            && !(AgendaState.firstResevationLoad ⟨true, true, false, 3, 3, true, none⟩)
         then { (⟨true, true, false, 3, 3, true, none⟩ : AgendaState) with
                  firstResevationLoad := true }
         else ⟨true, true, false, 3, 3, true, none⟩) :=
  absent_callbacks_safe ⟨false, false, false, some []⟩ 500
    ⟨true, true, false, 3, 3, true, none⟩ ⟨[], 0⟩ 7 [4] true rfl rfl rfl

theorem TimerSys.clear_nextId (ts : TimerSys) (idv : Option Nat) :
    (ts.clear idv).nextId = ts.nextId := rfl

theorem TimerSys.mem_clear {t : PTimer} (ts : TimerSys) (idv : Option Nat)
    (h : t ∈ (ts.clear idv).pending) : t ∈ ts.pending :=
  (List.mem_filter.1 h).1

/-- After `clearTimeout(this.scrollTimeout)`, no month-load timer is
pending, provided every pending month-load timer had the remembered id. -/
theorem filter_isLoad_clear_eq_nil (s : AgendaState) (ts : TimerSys)
    (hid : ∀ t ∈ ts.pending, isLoadTimer t = true → some t.id = s.scrollTimeout) :
    (ts.clear s.scrollTimeout).pending.filter isLoadTimer = [] := by
  rw [List.filter_eq_nil_iff]
  intro t ht
  rcases List.mem_filter.1 ht with ⟨hmem, hdec⟩
  have hne : some t.id ≠ s.scrollTimeout := of_decide_eq_true hdec
  exact fun hl => hne (hid t hmem hl)

/-- The scheduling branch of `onVisibleMonthsChange`, componentwise. -/
theorem onVisibleMonthsChange_schedules (props : Props) (s : AgendaState)
    (ts : TimerSys) (months : List DateValue)
    (hc : (props.items.isSome && !s.firstResevationLoad) = true) :
    (onVisibleMonthsChange props s ts months).2.pending =
      (ts.clear s.scrollTimeout).pending ++ [⟨ts.nextId, 200, .loadMonths months⟩]
    ∧ (onVisibleMonthsChange props s ts months).2.nextId = ts.nextId + 1
    ∧ (onVisibleMonthsChange props s ts months).1 =
        { s with scrollTimeout := some ts.nextId } := by
  unfold onVisibleMonthsChange
  rw [if_pos hc]
  exact ⟨rfl, rfl, rfl⟩

/-- **C6.** At most one deferred month-load timer is ever pending: under the
timer-discipline invariant, a call to `onVisibleMonthsChange` preserves the
invariant, and whenever it schedules (items present, first load not done) it
first clears the previously pending month-load timer, leaving exactly the
fresh 200 ms timer pending; the deferred continuation invokes
`loadItemsForMonth(months[0])` only if the component is still mounted at
firing time; and unmounting performs no timer cancellation at all — it only
clears the mounted flag. -/
theorem month_load_timer_discipline (props : Props) (s : AgendaState)
    (ts : TimerSys) (months : List DateValue) (hinv : LoadInv s ts) :
    LoadInv (onVisibleMonthsChange props s ts months).1
        (onVisibleMonthsChange props s ts months).2
    ∧ ((props.items.isSome && !s.firstResevationLoad) = true →
        (onVisibleMonthsChange props s ts months).2.pending.filter isLoadTimer =
          [⟨ts.nextId, 200, .loadMonths months⟩])
    ∧ (s.isMounted = false →
        (fireAction props s ts (.loadMonths months)).effs = [])
    ∧ (props.loadItemsForMonth = true → s.isMounted = true →
        (fireAction props s ts (.loadMonths months)).effs =
          [.loadItems (.month months.head?)])
    ∧ (componentWillUnmount s ts).2 = ts
    ∧ (componentWillUnmount s ts).1 = { s with isMounted := false } := by
  obtain ⟨hlen, hid, hrange⟩ := hinv
  have hclear := filter_isLoad_clear_eq_nil s ts hid
  have hfilter : ((props.items.isSome && !s.firstResevationLoad) = true →
      (onVisibleMonthsChange props s ts months).2.pending.filter isLoadTimer =
        [⟨ts.nextId, 200, .loadMonths months⟩]) := by
    intro hc
    obtain ⟨hp, _, _⟩ := onVisibleMonthsChange_schedules props s ts months hc
    rw [hp, List.filter_append, hclear, List.nil_append]
    simp [isLoadTimer]
  refine ⟨?_, hfilter, ?_, ?_, rfl, rfl⟩
  · by_cases hc : (props.items.isSome && !s.firstResevationLoad) = true
    · obtain ⟨hp, hn, hs⟩ := onVisibleMonthsChange_schedules props s ts months hc
      refine ⟨?_, ?_, ?_⟩
      · rw [hfilter hc]
        norm_num
      · intro t ht hl
        rw [hp] at ht
        rcases List.mem_append.1 ht with ht | ht
        · exfalso
          have : t ∈ (ts.clear s.scrollTimeout).pending.filter isLoadTimer :=
            List.mem_filter.2 ⟨ht, hl⟩
          rw [hclear] at this
          simp at this
        · rw [hs]
          simp at ht
          rw [ht]
      · intro t ht
        rw [hp] at ht
        rw [hn]
        rcases List.mem_append.1 ht with ht | ht
        · have := hrange t (TimerSys.mem_clear ts _ ht)
          omega
        · simp at ht
          rw [ht]
          show ts.nextId < ts.nextId + 1
          omega
    · unfold onVisibleMonthsChange
      rw [if_neg hc]
      exact ⟨hlen, hid, hrange⟩
  · intro h
    simp [fireAction, h]
  · intro h1 h2
    simp [fireAction, h1, h2]

/-- Witness for C6 at a concrete state with no pending timers (the invariant
holds trivially) and items present, so the scheduling branch fires. -/
theorem month_load_timer_discipline_witness :
    LoadInv (onVisibleMonthsChange ⟨true, true, true, some []⟩
        ⟨true, true, false, 3, 3, true, none⟩ ⟨[], 0⟩ [9]).1
        (onVisibleMonthsChange ⟨true, true, true, some []⟩
        ⟨true, true, false, 3, 3, true, none⟩ ⟨[], 0⟩ [9]).2
    ∧ (((Props.items ⟨true, true, true, some []⟩).isSome
          && !(AgendaState.firstResevationLoad ⟨true, true, false, 3, 3, true, none⟩)) = true →
        (onVisibleMonthsChange ⟨true, true, true, some []⟩
          ⟨true, true, false, 3, 3, true, none⟩ ⟨[], 0⟩ [9]).2.pending.filter isLoadTimer =
          [⟨TimerSys.nextId ⟨[], 0⟩, 200, .loadMonths [9]⟩])
    ∧ (AgendaState.isMounted ⟨true, true, false, 3, 3, true, none⟩ = false →
        (fireAction ⟨true, true, true, some []⟩
          ⟨true, true, false, 3, 3, true, none⟩ ⟨[], 0⟩ (.loadMonths [9])).effs = [])
    ∧ (Props.loadItemsForMonth ⟨true, true, true, some []⟩ = true →
        AgendaState.isMounted ⟨true, true, false, 3, 3, true, none⟩ = true →
        (fireAction ⟨true, true, true, some []⟩
          ⟨true, true, false, 3, 3, true, none⟩ ⟨[], 0⟩ (.loadMonths [9])).effs =
          [.loadItems (.month ([9] : List DateValue).head?)])
    ∧ (componentWillUnmount ⟨true, true, false, 3, 3, true, none⟩ ⟨[], 0⟩).2 = ⟨[], 0⟩
    ∧ (componentWillUnmount ⟨true, true, false, 3, 3, true, none⟩ ⟨[], 0⟩).1 =
        { (⟨true, true, false, 3, 3, true, none⟩ : AgendaState) with isMounted := false } :=
  month_load_timer_discipline ⟨true, true, true, some []⟩
    ⟨true, true, false, 3, 3, true, none⟩ ⟨[], 0⟩ [9]
    ⟨by simp, fun t ht => absurd ht (List.not_mem_nil t),
     fun t ht => absurd ht (List.not_mem_nil t)⟩

/-- **C8.** On construction, the selected date and the top visible date are
initialized to the same value: the parse of the `selected` prop when it is
provided and parseable, and today's date (`XDate(true)`) otherwise; in
particular with `selected` omitted both equal today. -/
theorem initial_selected_equals_topDay (selected : Option PropDate)
    (today : DateValue) :
    (initialAgendaState selected today).selectedDay =
      (initialAgendaState selected today).topDay
    ∧ (initialAgendaState none today).selectedDay = today
    ∧ (initialAgendaState none today).topDay = today
    ∧ (∀ d, (initialAgendaState (some (.parseable d)) today).selectedDay = d)
    ∧ (initialAgendaState (some .unparseable) today).selectedDay = today :=
  ⟨rfl, rfl, rfl, fun _ => rfl, rfl⟩

end Agenda
